import Mathlib

/-!
Verification of the Chord-based distributed storage core of the
distributed-social-network repository, against its natural-language
specification.  The Python sources under src/server/server/chord are
shallowly embedded: Python strings become lists of characters, dicts
become functions into Option, machine integers are unbounded Python
ints and therefore plain Int, RPC calls become oracle functions where
None models a failed call, and raised exceptions become Except errors.
-/

/-- Python str, embedded as its sequence of characters. -/
abbrev PyKey := List Char

/-- Convert a Lean string literal to an embedded Python string. -/
def kc (s : String) : PyKey := s.data

/-- Source constant META_VER_PREFIX = "__meta_ver__" (storage.py).
The Lean name drops the last word of the source name. -/
def META_VER_TAG : PyKey := kc "__meta_ver__"

/-- Source constant META_DEL_PREFIX = "__meta_del__" (storage.py). -/
def META_DEL_TAG : PyKey := kc "__meta_del__"

/-- storage.meta_ver_key: f-string concatenation of prefix and key. -/
def meta_ver_key (k : PyKey) : PyKey := META_VER_TAG ++ k

/-- storage.meta_del_key. -/
def meta_del_key (k : PyKey) : PyKey := META_DEL_TAG ++ k

/-- storage.is_meta_key: str.startswith on either marker. -/
def is_meta_key (k : PyKey) : Bool :=
  META_VER_TAG.isPrefixOf k || META_DEL_TAG.isPrefixOf k

/-- storage.base_key_from_meta: strip one leading marker, if any;
key[len(p):] is List.drop. -/
def base_key_from_meta (k : PyKey) : PyKey :=
  if META_VER_TAG.isPrefixOf k then k.drop META_VER_TAG.length
  else if META_DEL_TAG.isPrefixOf k then k.drop META_DEL_TAG.length
  else k

/-- Python int(s) on a string, None on ValueError (models the
try/except int conversions in storage.py). -/
def pyInt? (s : String) : Option Int := s.toInt?

/-- The in-memory dict self.data of storage.Storage: a finite map from
keys to stored strings, embedded as a function into Option. -/
def StoreMap := PyKey → Option String

/-- Python d[k] = v on a dict. -/
def dictSet (d : StoreMap) (k : PyKey) (v : String) : StoreMap :=
  fun x => if x = k then some v else d x

/-- Python d.pop(k, None) on a dict. -/
def dictPop (d : StoreMap) (k : PyKey) : StoreMap :=
  fun x => if x = k then none else d x

/-- State of storage.Storage (the persistence side-effect _save keeps
the same in-memory map and is dropped). -/
structure Storage where
  data : StoreMap

/-- The empty store (fresh database). -/
def emptyStorage : Storage := ⟨fun _ => none⟩

/-- Storage.put(key, value, version): strip a meta marker off the key,
store the value at the base key, record str(version) under the version
meta key, and drop any tombstone meta entry.  A version of none models
the Python default None, replaced by the clock reading now. -/
def Storage.put (s : Storage) (key : PyKey) (value : String)
    (version : Option Int) (now : Int) : Storage :=
  let k := base_key_from_meta key
  let ver := version.getD now
  ⟨dictPop (dictSet (dictSet s.data k value) (meta_ver_key k) (toString ver))
    (meta_del_key k)⟩

/-- Storage.get(key): plain dict lookup, no meta stripping. -/
def Storage.get (s : Storage) (key : PyKey) : Option String :=
  s.data key

/-- Storage.delete(key, version): strip a meta marker, drop the base
key and its version meta entry, record the tombstone version. -/
def Storage.delete (s : Storage) (key : PyKey) (version : Option Int)
    (now : Int) : Storage :=
  let k := base_key_from_meta key
  let ver := version.getD now
  ⟨dictSet (dictPop (dictPop s.data k) (meta_ver_key k)) (meta_del_key k)
    (toString ver)⟩

/-- Storage.purge(key): drop the whole triple of the base key. -/
def Storage.purge (s : Storage) (key : PyKey) : Storage :=
  let k := base_key_from_meta key
  ⟨dictPop (dictPop (dictPop s.data k) (meta_ver_key k)) (meta_del_key k)⟩

/-- Storage.exists(key): verbatim dict membership. -/
def Storage.existsKey (s : Storage) (key : PyKey) : Bool :=
  (s.data key).isSome

/-- Storage.get_version(key): read the version meta entry of the base
key; missing entry or unparsable int gives 0. -/
def Storage.get_version (s : Storage) (key : PyKey) : Int :=
  let k := base_key_from_meta key
  match s.data (meta_ver_key k) with
  | none => 0
  | some raw => (pyInt? raw).getD 0

/-- Storage.get_deleted_version(key). -/
def Storage.get_deleted_version (s : Storage) (key : PyKey) : Int :=
  let k := base_key_from_meta key
  match s.data (meta_del_key k) with
  | none => 0
  | some raw => (pyInt? raw).getD 0

/-- ChordNode.Put RPC handler (node.py): storage.put with the current
synchronized clock as version. -/
def nodePutRPC (s : Storage) (key : PyKey) (value : String) (now : Int) :
    Storage :=
  s.put key value (some now) now

/-- ChordNode.Delete RPC handler (node.py). -/
def nodeDeleteRPC (s : Storage) (key : PyKey) (now : Int) : Storage :=
  s.delete key (some now) now

/-- ChordNode.Get RPC handler (node.py): returns the stored string or
the empty string when the key is absent. -/
def nodeGetRPC (s : Storage) (key : PyKey) : String :=
  (s.data key).getD ""

/-! ## Replicator._pick_winner (replicator.py lines 731-797) -/

/-- Winner source tag: the Python strings "inc" and "local". -/
inductive Side
  | inc
  | loc
deriving DecidableEq

/-- Winner state tag: the Python strings "val" and "del". -/
inductive WState
  | val
  | del
deriving DecidableEq

/-- Return value of _pick_winner: (source, state, value, version). -/
structure Winner where
  source : Side
  state : WState
  value : Option String
  version : Int
deriving DecidableEq

/-- Normalization of one side inside _pick_winner: the three-branch
if/elif/elif chain that produces inc_state or local_state (None when
no branch fires). -/
def pyNormSide (val : Option String) (ver del : Int) :
    Option (WState × Int) :=
  if del ≥ ver ∧ del > 0 then some (WState.del, del)
  else if val ≠ none ∨ ver > 0 then some (WState.val, ver)
  else if del > 0 then some (WState.del, del)
  else none

/-- Replicator._pick_winner, embedded statement by statement.  The
arguments mirror (inc_val, inc_ver, inc_del, local_val, local_ver,
local_del); now is the clock reading self.node.now_version() used when
the winning timestamp is not positive. -/
def pickWinner (inc_val : Option String) (inc_ver inc_del : Int)
    (local_val : Option String) (local_ver local_del : Int)
    (now : Int) : Option Winner :=
  let incS := pyNormSide inc_val inc_ver inc_del
  let locS := pyNormSide local_val local_ver local_del
  if incS = none ∧ locS = none then none
  else
    let incTs := (incS.map Prod.snd).getD 0
    let locTs := (locS.map Prod.snd).getD 0
    let w : Side × WState × Int :=
      if incS.isSome ∧ incTs > locTs then
        (Side.inc, (incS.map Prod.fst).getD WState.val, incTs)
      else if locS.isSome ∧ locTs > incTs then
        (Side.loc, (locS.map Prod.fst).getD WState.val, locTs)
      else
        match incS, locS with
        | some (si, _), some (sl, _) =>
          if si = WState.val ∧ sl = WState.del then
            (Side.inc, WState.val, incTs)
          else if si = WState.del ∧ sl = WState.val then
            (Side.loc, WState.val, locTs)
          else
            (Side.loc, sl, locTs)
        | some (si, _), none => (Side.inc, si, incTs)
        | none, some (sl, _) => (Side.loc, sl, locTs)
        -- unreachable: the both-none case returned None above; the
        -- Python code would raise there, so the arm is never taken
        | none, none => (Side.loc, WState.val, 0)
    let winVal0 : Option String :=
      match w.1 with
      | Side.inc => inc_val
      | Side.loc => local_val
    some ⟨w.1, w.2.1,
      (if w.2.1 = WState.del then none else winVal0),
      (if w.2.2 ≤ 0 then now else w.2.2)⟩

/-- Canonical normalization of one side, the spec wording amended by
the dead third branch of the source: a tombstone iff del ≥ ver and
del > 0, a live value iff a value is present or ver > 0, otherwise no
state at all. -/
def normSide (val : Option String) (ver del : Int) :
    Option (WState × Int) :=
  if del ≥ ver ∧ del > 0 then some (WState.del, del)
  else if val ≠ none ∨ ver > 0 then some (WState.val, ver)
  else none

/-- Build the final Winner record from a chosen side, state, raw value
and timestamp: a tombstone carries no value, and a non-positive
winning timestamp is replaced by the clock reading. -/
def mkWin (src : Side) (st : WState) (v : Option String) (ts now : Int) :
    Winner :=
  ⟨src, st, (if st = WState.del then none else v),
    (if ts ≤ 0 then now else ts)⟩

/-- Winner selection on the two normalized states: strictly higher
timestamp wins; with both states present and equal timestamps a live
value beats a tombstone and otherwise the local side wins; with only
one state present that side wins; with no state there is no winner. -/
def pickCanon (incS locS : Option (WState × Int))
    (inc_val local_val : Option String) (now : Int) : Option Winner :=
  match incS, locS with
  | none, none => none
  | some (si, ti), none => some (mkWin Side.inc si inc_val ti now)
  | none, some (sl, tl) => some (mkWin Side.loc sl local_val tl now)
  | some (si, ti), some (sl, tl) =>
    if ti > tl then some (mkWin Side.inc si inc_val ti now)
    else if tl > ti then some (mkWin Side.loc sl local_val tl now)
    else if si = WState.val ∧ sl = WState.del then
      some (mkWin Side.inc WState.val inc_val ti now)
    else if si = WState.del ∧ sl = WState.val then
      some (mkWin Side.loc WState.val local_val tl now)
    else some (mkWin Side.loc sl local_val tl now)

theorem pyNormSide_eq (val : Option String) (ver del : Int) :
    pyNormSide val ver del = normSide val ver del := by
  unfold pyNormSide normSide
  split_ifs with h1 h2 h3 <;> try rfl
  · push_neg at h2
    exact absurd ⟨by omega, h3⟩ h1

theorem pickWinner_eq (iv : Option String) (ivr idl : Int)
    (lv : Option String) (lvr ldl : Int) (now : Int) :
    pickWinner iv ivr idl lv lvr ldl now =
      pickCanon (normSide iv ivr idl) (normSide lv lvr ldl) iv lv now := by
  unfold pickWinner
  rw [pyNormSide_eq, pyNormSide_eq]
  rcases hI : normSide iv ivr idl with _ | ⟨si, ti⟩ <;>
    rcases hL : normSide lv lvr ldl with _ | ⟨sl, tl⟩
  · simp [pickCanon]
  · simp only [pickCanon, Option.map_some', Option.map_none', Option.getD,
      Option.isSome]
    simp [mkWin]
  · simp only [pickCanon, Option.map_some', Option.map_none', Option.getD,
      Option.isSome]
    simp [mkWin]
  · simp only [pickCanon, Option.map_some', Option.map_none', Option.getD,
      Option.isSome]
    simp only [reduceCtorEq, and_false, false_and, if_false, ite_false,
      Option.some.injEq, true_and, and_true]
    split_ifs <;> simp_all [mkWin] <;> omega

/-! ## Per-key view of partitions and of the local store

set_partition and resolve_data (replicator.py) loop over a union of
keys and act on each non-meta key independently: the storage triple of
one non-meta key (key, meta_ver_key key, meta_del_key key) is disjoint
from the triple of any other.  The per-key state of the local store is
therefore either absent, a live value with its version, or a tombstone
with its version; the live value is an Option String because
storage.put can store Python None when set_partition applies a winner
that carries no value. -/

inductive KState
  | absent
  | live (v : Option String) (ts : Int)
  | dead (ts : Int)
deriving DecidableEq

/-- How a per-key local state appears as a partition entry
(values.get(key), versions.get(key, 0), removed.get(key, 0)): live
keys come from base_items with their get_version, tombstones from
deleted_items, absent keys from the dict defaults. -/
def toInc : KState → Option String × Int × Int
  | KState.absent => (none, 0, 0)
  | KState.live v t => (v, t, 0)
  | KState.dead t => (none, 0, t)

/-- The per-key action of Replicator.set_partition: pick the winner of
the incoming entry against the local state and apply it only when the
incoming side won; storage.delete and storage.put receive the winning
version, or the clock when it is not positive. -/
def applyK (loc : KState) (inc : Option String × Int × Int) (now : Int) :
    KState :=
  match pickWinner inc.1 inc.2.1 inc.2.2
      (toInc loc).1 (toInc loc).2.1 (toInc loc).2.2 now with
  | none => loc
  | some w =>
    if w.source = Side.inc then
      if w.state = WState.del then
        KState.dead (if w.version > 0 then w.version else now)
      else
        KState.live w.value (if w.version > 0 then w.version else now)
    else loc

/-- Merging one partition entry onto a local per-key state, with the
second argument presented as a partition entry: the binary LWW merge
that anti-entropy iterates. -/
def mergeS (a b : KState) (now : Int) : KState :=
  applyK a (toInc b) now

/-- Result entry of resolve_data for one key: the optional entries of
res_values, res_versions and res_removed.  The res_values entry is an
Option Option String because the Python dict can hold None. -/
structure ResEntry where
  rvalue : Option (Option String)
  rversion : Option Int
  rremoved : Option Int
deriving DecidableEq

/-- The per-key action of Replicator.resolve_data: pick the winner,
apply it locally whichever side won, and return it to the caller. -/
def resolveKeyed (loc : KState) (inc : Option String × Int × Int)
    (now : Int) : KState × ResEntry :=
  match pickWinner inc.1 inc.2.1 inc.2.2
      (toInc loc).1 (toInc loc).2.1 (toInc loc).2.2 now with
  | none => (loc, ⟨none, none, none⟩)
  | some w =>
    if w.state = WState.del then
      (KState.dead (if w.version > 0 then w.version else now),
        ⟨none, none, some w.version⟩)
    else
      (KState.live w.value (if w.version > 0 then w.version else now),
        ⟨some w.value, some w.version, none⟩)

/-- How a ResEntry is read back by set_partition on the caller side of
delegate_to_predecessor: values.get(key), versions.get(key, 0),
removed.get(key, 0). -/
def entryTriple (e : ResEntry) : Option String × Int × Int :=
  ((e.rvalue.getD none), e.rversion.getD 0, e.rremoved.getD 0)

/-- The per-key effect of delegate_to_predecessor on the caller: the
returned partition is applied through set_partition; a key the
predecessor did not return is simply not in the iterated key set. -/
def delegateApply (loc : KState) (ent : Option (Option String × Int × Int))
    (now : Int) : KState :=
  match ent with
  | none => loc
  | some e => applyK loc e now

/-- Every timestamp of the per-key state is positive. -/
def posTS : KState → Prop
  | KState.absent => True
  | KState.live _ t => 0 < t
  | KState.dead t => 0 < t

instance (s : KState) : Decidable (posTS s) := by
  unfold posTS; cases s <;> infer_instance

/-- LWW rank of a per-key state: compared lexicographically, higher
timestamp first, then live above tombstone; absent is the bottom. -/
def rank : KState → Int × Int
  | KState.absent => (0, 0)
  | KState.dead t => (t, 0)
  | KState.live _ t => (t, 1)

/-- Strict lexicographic order on ranks. -/
def ltR (a b : Int × Int) : Prop :=
  a.1 < b.1 ∨ (a.1 = b.1 ∧ a.2 < b.2)

instance (a b : Int × Int) : Decidable (ltR a b) := by
  unfold ltR; infer_instance

/-- The state tag of a present per-key state. -/
def stOf : KState → WState
  | KState.dead _ => WState.del
  | _ => WState.val

/-- The timestamp of a per-key state. -/
def tsOf : KState → Int
  | KState.absent => 0
  | KState.dead t => t
  | KState.live _ t => t

/-- The winner _pick_winner chooses between a local state and another
state presented as the incoming entry, when both have positive
timestamps: the side of strictly larger rank, the local side on exact
rank ties. -/
def winnerOf (loc inc : KState) : Winner :=
  if ltR (rank loc) (rank inc) then
    ⟨Side.inc, stOf inc,
      (if stOf inc = WState.del then none else (toInc inc).1), tsOf inc⟩
  else
    ⟨Side.loc, stOf loc,
      (if stOf loc = WState.del then none else (toInc loc).1), tsOf loc⟩

theorem normSide_live (v : Option String) (t : Int) (ht : 0 < t) :
    normSide v t 0 = some (WState.val, t) := by
  unfold normSide
  rw [if_neg (by omega), if_pos (Or.inr ht)]

theorem normSide_dead (t : Int) (ht : 0 < t) :
    normSide none 0 t = some (WState.del, t) := by
  unfold normSide
  rw [if_pos ⟨by omega, ht⟩]

theorem normSide_absent : normSide none 0 0 = none := by decide

theorem winner_pos (loc inc : KState) (now : Int)
    (hl : posTS loc) (hi : posTS inc)
    (hne : ¬(loc = KState.absent ∧ inc = KState.absent)) :
    pickWinner (toInc inc).1 (toInc inc).2.1 (toInc inc).2.2
      (toInc loc).1 (toInc loc).2.1 (toInc loc).2.2 now =
      some (winnerOf loc inc) := by
  rw [pickWinner_eq]
  rcases loc with _ | ⟨lv, lt⟩ | lt <;> rcases inc with _ | ⟨iv, it⟩ | it
  · exact absurd ⟨rfl, rfl⟩ hne
  · have hit : (0:Int) < it := hi
    clear hl hi hne
    simp only [toInc]
    rw [normSide_absent, normSide_live iv it hit]
    simp only [pickCanon, winnerOf, rank, ltR, stOf, tsOf, toInc, mkWin]
    split_ifs <;> first | rfl | omega | simp_all
  · have hit : (0:Int) < it := hi
    clear hl hi hne
    simp only [toInc]
    rw [normSide_absent, normSide_dead it hit]
    simp only [pickCanon, winnerOf, rank, ltR, stOf, tsOf, toInc, mkWin]
    split_ifs <;> first | rfl | omega | simp_all
  · have hlt : (0:Int) < lt := hl
    clear hl hi hne
    simp only [toInc]
    rw [normSide_absent, normSide_live lv lt hlt]
    simp only [pickCanon, winnerOf, rank, ltR, stOf, tsOf, toInc, mkWin]
    split_ifs <;> first | rfl | omega | simp_all
  · have hit : (0:Int) < it := hi
    have hlt : (0:Int) < lt := hl
    clear hl hi hne
    simp only [toInc]
    rw [normSide_live iv it hit, normSide_live lv lt hlt]
    simp only [pickCanon, winnerOf, rank, ltR, stOf, tsOf, toInc, mkWin]
    split_ifs <;> first | rfl | omega | simp_all
  · have hit : (0:Int) < it := hi
    have hlt : (0:Int) < lt := hl
    clear hl hi hne
    simp only [toInc]
    rw [normSide_dead it hit, normSide_live lv lt hlt]
    simp only [pickCanon, winnerOf, rank, ltR, stOf, tsOf, toInc, mkWin]
    split_ifs <;> first | rfl | omega | simp_all
  · have hlt : (0:Int) < lt := hl
    clear hl hi hne
    simp only [toInc]
    rw [normSide_absent, normSide_dead lt hlt]
    simp only [pickCanon, winnerOf, rank, ltR, stOf, tsOf, toInc, mkWin]
    split_ifs <;> first | rfl | omega | simp_all
  · have hit : (0:Int) < it := hi
    have hlt : (0:Int) < lt := hl
    clear hl hi hne
    simp only [toInc]
    rw [normSide_live iv it hit, normSide_dead lt hlt]
    simp only [pickCanon, winnerOf, rank, ltR, stOf, tsOf, toInc, mkWin]
    split_ifs <;> first | rfl | omega | simp_all
  · have hit : (0:Int) < it := hi
    have hlt : (0:Int) < lt := hl
    clear hl hi hne
    simp only [toInc]
    rw [normSide_dead it hit, normSide_dead lt hlt]
    simp only [pickCanon, winnerOf, rank, ltR, stOf, tsOf, toInc, mkWin]
    split_ifs <;> first | rfl | omega | simp_all

theorem merge_pos (a b : KState) (now : Int)
    (ha : posTS a) (hb : posTS b) :
    mergeS a b now = if ltR (rank a) (rank b) then b else a := by
  by_cases habs : a = KState.absent ∧ b = KState.absent
  · rcases habs with ⟨ha1, hb1⟩
    subst ha1; subst hb1
    simp [mergeS, applyK, toInc, pickWinner, pyNormSide, ltR, rank]
  · unfold mergeS applyK
    rw [winner_pos a b now ha hb habs]
    by_cases hord : ltR (rank a) (rank b)
    · rw [if_pos hord]
      unfold winnerOf
      rw [if_pos hord]
      rcases b with _ | ⟨bv, bt⟩ | bt
      · exfalso
        rcases a with _ | ⟨av, at2⟩ | at2 <;> simp [rank, ltR] at hord <;>
          simp [posTS] at ha <;> omega
      · have hbt : (0:Int) < bt := hb
        simp [stOf, tsOf, toInc, hbt]
      · have hbt : (0:Int) < bt := hb
        simp [stOf, tsOf, toInc, hbt]
    · rw [if_neg hord]
      unfold winnerOf
      rw [if_neg hord]
      simp

theorem ltR_trans {x y z : Int × Int} (h1 : ltR x y) (h2 : ltR y z) :
    ltR x z := by
  simp only [ltR] at *
  omega

theorem ltR_not_trans {x y z : Int × Int} (h1 : ¬ltR x y) (h2 : ¬ltR y z) :
    ¬ltR x z := by
  simp only [ltR] at *
  omega

/-! ## Claim C1: the canonical LWW rule of _pick_winner -/

/-- Normalization of one side exactly as claim C1 words it: a
tombstone with timestamp del iff del ≥ ver and del > 0, otherwise a
live value with timestamp ver (every side gets a state). -/
def normClaim (_val : Option String) (ver del : Int) : WState × Int :=
  if del ≥ ver ∧ del > 0 then (WState.del, del) else (WState.val, ver)

/-- Winner (source, state) under the rule exactly as claim C1 words
it: strictly higher timestamp wins, on a tie a live-value state beats
a tombstone state, and with both sides in the same state at equal
timestamps the local side wins. -/
def pickWinnerClaimRule (inc_val : Option String) (inc_ver inc_del : Int)
    (local_val : Option String) (local_ver local_del : Int) :
    Side × WState :=
  let i := normClaim inc_val inc_ver inc_del
  let l := normClaim local_val local_ver local_del
  if i.2 > l.2 then (Side.inc, i.1)
  else if l.2 > i.2 then (Side.loc, l.1)
  else if i.1 = WState.val ∧ l.1 = WState.del then (Side.inc, i.1)
  else if i.1 = WState.del ∧ l.1 = WState.val then (Side.loc, l.1)
  else (Side.loc, l.1)

/-- C1 counterexample: for the pair of per-key states
(inc_val, inc_ver, inc_del) = (some "v", 0, 0) and
(loc_val, loc_ver, loc_del) = (none, 0, 0), the rule of claim C1
normalizes both sides to live values with timestamp 0 and lets the
local side win the same-state tie, but _pick_winner treats the local
side as having no state at all and the incoming side wins. -/
theorem c1_counterexample :
    (pickWinner (some "v") 0 0 none 0 0 100).map
        (fun w => (w.source, w.state)) ≠
      some (pickWinnerClaimRule (some "v") 0 0 none 0 0) := by
  decide

/-- The LWW rule _pick_winner actually implements, i.e. claim C1
amended: a side with no value and no positive ver and no positive del
normalizes to no state at all; when both sides have no state there is
no winner; when exactly one side has a state it wins even on a
timestamp tie; otherwise the stated rule applies (strictly higher
timestamp wins, live beats tombstone on a tie, local wins a same-state
tie); the winner keeps its own value (none for a tombstone) and its
own timestamp, except that a non-positive winning timestamp is
replaced by the current clock reading. -/
def pickWinnerAmended (inc_val : Option String) (inc_ver inc_del : Int)
    (local_val : Option String) (local_ver local_del : Int)
    (now : Int) : Option Winner :=
  pickCanon (normSide inc_val inc_ver inc_del)
    (normSide local_val local_ver local_del) inc_val local_val now

/-- C1 (amended): Replicator._pick_winner implements, for every pair
of per-key states, the normalize-then-compare LWW rule of
pickWinnerAmended: tombstone iff del ≥ ver and del > 0, else live iff
a value is present or ver > 0, else no state; strictly higher
timestamp wins; on a tie a live state beats a tombstone, a present
state beats an absent one, and the local side wins otherwise. -/
theorem c1_pick_winner_amended (inc_val : Option String)
    (inc_ver inc_del : Int) (local_val : Option String)
    (local_ver local_del : Int) (now : Int) :
    pickWinner inc_val inc_ver inc_del local_val local_ver local_del now =
      pickWinnerAmended inc_val inc_ver inc_del local_val local_ver
        local_del now := by
  rw [pickWinner_eq]
  rfl

/-! ## Claim C3: order-insensitivity of the LWW merge -/

/-- C3 counterexample: with A = live "b" at version 0, B = absent and
C = live "c" at version 0, merging with the current clock at 100 gives
merge(A, merge(B, C)) = live "c" at 100 but merge(merge(A, B), C) =
live "b" at 0, because the winner of an absent side against a version-0
value gets its timestamp replaced by the clock. -/
theorem c3_counterexample :
    mergeS (KState.live (some "b") 0)
        (mergeS KState.absent (KState.live (some "c") 0) 100) 100 ≠
      mergeS (mergeS (KState.live (some "b") 0) KState.absent 100)
        (KState.live (some "c") 0) 100 := by
  decide

/-- C3 (amended): the per-key LWW merge used identically by
SetPartition, ResolveData and the per-key push is associative for all
per-key states whose live or tombstone timestamps are positive (the
only states the storage writes on its own, since every stored version
comes from the millisecond clock); entries with non-positive
timestamps are re-stamped with the current clock and can break the
law, as the counterexample shows. -/
theorem c3_merge_associative_pos (a b c : KState) (now : Int)
    (ha : posTS a) (hb : posTS b) (hc : posTS c) :
    mergeS a (mergeS b c now) now = mergeS (mergeS a b now) c now := by
  rw [merge_pos b c now hb hc, merge_pos a b now ha hb]
  by_cases h1 : ltR (rank b) (rank c)
  · by_cases h2 : ltR (rank a) (rank b)
    · rw [if_pos h1, if_pos h2, merge_pos a c now ha hc,
        merge_pos b c now hb hc, if_pos h1, if_pos (ltR_trans h2 h1)]
    · rw [if_pos h1, if_neg h2]
  · by_cases h2 : ltR (rank a) (rank b)
    · rw [if_neg h1, if_pos h2, merge_pos a b now ha hb,
        merge_pos b c now hb hc, if_neg h1, if_pos h2]
    · rw [if_neg h1, if_neg h2, merge_pos a b now ha hb,
        merge_pos a c now ha hc, if_neg h2, if_neg (ltR_not_trans h2 h1)]

/-- Witness for C3 (amended) at A = live "a" 5, B = dead 7,
C = live "b" 7, clock 100. -/
theorem c3_witness :
    posTS (KState.live (some "a") 5) ∧ posTS (KState.dead 7) ∧
      posTS (KState.live (some "b") 7) ∧
      mergeS (KState.live (some "a") 5)
          (mergeS (KState.dead 7) (KState.live (some "b") 7) 100) 100 =
        mergeS (mergeS (KState.live (some "a") 5) (KState.dead 7) 100)
          (KState.live (some "b") 7) 100 :=
  ⟨by decide, by decide, by decide,
    c3_merge_associative_pos _ _ _ 100 (by decide) (by decide) (by decide)⟩

/-! ## Claim C4: ResolveData and delegate_to_predecessor -/

/-- C4 counterexample: a local key the predecessor did not return is
not dropped by the caller.  delegate_to_predecessor applies the
returned partition through set_partition, and set_partition only
iterates the keys present in the partition: a live local key absent
from the returned partition stays exactly as it was instead of being
removed, contradicting the claim that the caller drops every local key
the predecessor did not return. -/
theorem c4_counterexample :
    delegateApply (KState.live (some "v") 5) none 100 ≠ KState.absent := by
  decide

/-- C4 (amended): per key, resolve_data picks the LWW winner of the
incoming entry against the local state over the union of incoming and
local keys, applies the winner locally (for states with positive
timestamps this equals the canonical merge mergeS), and returns
exactly the winning state as the partition entry the caller should
keep; the caller applies the returned partition through SetPartition,
and a local key the predecessor did not return is left unchanged, not
dropped. -/
theorem c4_resolve_delegate_amended (pred caller : KState) (now : Int)
    (hp : posTS pred) (hc : posTS caller) :
    ((resolveKeyed pred (toInc caller) now).1 = mergeS pred caller now ∧
      entryTriple (resolveKeyed pred (toInc caller) now).2 =
        toInc (mergeS pred caller now)) ∧
      ∀ loc : KState, delegateApply loc none now = loc := by
  constructor
  · by_cases habs : pred = KState.absent ∧ caller = KState.absent
    · rcases habs with ⟨h1, h2⟩
      subst h1; subst h2
      exact ⟨rfl, rfl⟩
    · unfold resolveKeyed
      rw [winner_pos pred caller now hp hc habs,
        merge_pos pred caller now hp hc]
      unfold winnerOf
      by_cases hord : ltR (rank pred) (rank caller)
      · rw [if_pos hord, if_pos hord]
        rcases caller with _ | ⟨cv, ct⟩ | ct
        · exfalso
          rcases pred with _ | ⟨pv, pt⟩ | pt <;> simp [rank, ltR] at hord <;>
            simp [posTS] at hp <;> omega
        · have h : (0:Int) < ct := hc
          simp [stOf, tsOf, toInc, entryTriple, gt_iff_lt, h]
        · have h : (0:Int) < ct := hc
          simp [stOf, tsOf, toInc, entryTriple, gt_iff_lt, h]
      · rw [if_neg hord, if_neg hord]
        rcases pred with _ | ⟨pv, pt⟩ | pt
        · exfalso
          rcases caller with _ | ⟨cv, ct⟩ | ct
          · exact habs ⟨rfl, rfl⟩
          · exact hord (Or.inl hc)
          · exact hord (Or.inl hc)
        · have h : (0:Int) < pt := hp
          simp [stOf, tsOf, toInc, entryTriple, gt_iff_lt, h]
        · have h : (0:Int) < pt := hp
          simp [stOf, tsOf, toInc, entryTriple, gt_iff_lt, h]
  · intro loc
    rfl

/-- Witness for C4 (amended) at predecessor = dead 9, caller =
live "u" 4, clock 50. -/
theorem c4_witness :
    posTS (KState.dead 9) ∧ posTS (KState.live (some "u") 4) ∧
      (((resolveKeyed (KState.dead 9) (toInc (KState.live (some "u") 4))
            50).1 =
          mergeS (KState.dead 9) (KState.live (some "u") 4) 50 ∧
        entryTriple
            (resolveKeyed (KState.dead 9)
              (toInc (KState.live (some "u") 4)) 50).2 =
          toInc (mergeS (KState.dead 9) (KState.live (some "u") 4) 50)) ∧
        ∀ loc : KState, delegateApply loc none 50 = loc) :=
  ⟨by decide, by decide,
    c4_resolve_delegate_amended _ _ 50 (by decide) (by decide)⟩

/-! ## Claim C5: ChordNode.find_successor (node.py lines 242-286) -/

/-- Protobuf NodeInfo: ring id and network address. -/
structure NodeInfo where
  id : Int
  address : String
deriving DecidableEq

/-- utils.is_in_interval(x, a, b, inclusive_end): membership of x in
the modular interval (a, b) or (a, b]. -/
def is_in_interval (x a b : Int) (inclusive_end : Bool) : Bool :=
  if a < b then
    (if inclusive_end then decide (a < x) && decide (x ≤ b)
      else decide (a < x) && decide (x < b))
  else
    (if inclusive_end then decide (x > a) || decide (x ≤ b)
      else decide (x > a) || decide (x < b))

/-- The routing state of a ChordNode that find_successor reads: own
id, own address, and the finger table (entries may be Python None). -/
structure ChordState where
  id : Int
  address : String
  finger : List (Option NodeInfo)

/-- The descending scan of ChordNode.closest_preceding_node: indices
M_BITS-1 down to 0, returning the first finger that is set and lies in
(self.id, key); scanning the list from the right is that descending
index loop. -/
def cpnScan (selfId key : Int) : List (Option NodeInfo) → Option NodeInfo
  | [] => none
  | f :: rest =>
    match cpnScan selfId key rest with
    | some n => some n
    | none =>
      match f with
      | some fi =>
        if is_in_interval fi.id selfId key false then some fi else none
      | none => none

/-- ChordNode.closest_preceding_node: the scan result, or self when no
finger precedes the key. -/
def closest_preceding_node (st : ChordState) (key : Int) : NodeInfo :=
  (cpnScan st.id key st.finger).getD ⟨st.id, st.address⟩

/-- ChordNode.find_successor.  rpc a k models the remote
FindSuccessor(k) call to address a; none is an RPC failure (the
grpc exception path). -/
def find_successor (st : ChordState) (rpc : String → Int → Option NodeInfo)
    (key : Int) : NodeInfo :=
  let succ := (st.finger.headD none).getD ⟨st.id, st.address⟩
  if succ.address = st.address then succ
  else if is_in_interval key st.id succ.id true then succ
  else
    let n0 := closest_preceding_node st key
    if n0.address = st.address then succ
    else
      match rpc n0.address key with
      | some result => result
      | none => succ

/-- The closest preceding finger as claim C5 words it: the first
finger, scanning fingers from the highest index down, that is alive
and lies in (self.id, key). -/
def cpnAliveClaim (st : ChordState) (alive : String → Bool) (key : Int) :
    Option NodeInfo :=
  (st.finger.reverse.filterMap id).find?
    (fun f => alive f.address && is_in_interval f.id st.id key false)

/-- find_successor exactly as claim C5 words it: self when alone, the
successor when the key falls in (self.id, succ.id], otherwise forward
to the closest preceding finger that is alive and return its answer
(own successor when no remote finger precedes the key, and finger[0]
when the forwarded RPC fails). -/
def find_successor_claim (st : ChordState) (alive : String → Bool)
    (rpc : String → Int → Option NodeInfo) (key : Int) : NodeInfo :=
  let succ := (st.finger.headD none).getD ⟨st.id, st.address⟩
  if succ.address = st.address then succ
  else if is_in_interval key st.id succ.id true then succ
  else
    match cpnAliveClaim st alive key with
    | none => succ
    | some n0 =>
      if n0.address = st.address then succ
      else
        match rpc n0.address key with
        | some result => result
        | none => succ

/-- The finger table of the C5 counterexample: successor ⟨1, "a"⟩ and
one more finger ⟨3, "b"⟩. -/
def c5Finger : ChordState :=
  ⟨0, "self", [some ⟨1, "a"⟩, some ⟨3, "b"⟩, none, none, none, none,
    none, none]⟩

/-- RPC oracle of the C5 counterexample: node "b" is dead (every call
fails), node "a" is alive and answers ⟨6, "n6"⟩. -/
def c5Rpc (a : String) (_k : Int) : Option NodeInfo :=
  if a = "a" then some ⟨6, "n6"⟩ else none

/-- Liveness oracle of the C5 counterexample, consistent with c5Rpc:
exactly the addresses whose RPCs succeed are alive. -/
def c5Alive (a : String) : Bool :=
  a = "a"

/-- C5 counterexample: looking up key 5, the code picks the closest
preceding finger ⟨3, "b"⟩ without any liveness check, the RPC to the
dead "b" fails, and find_successor returns its own successor ⟨1, "a"⟩;
the claim instead forwards to the closest preceding finger that is
alive, here ⟨1, "a"⟩ itself, and returns its answer ⟨6, "n6"⟩. -/
theorem c5_counterexample :
    find_successor c5Finger c5Rpc 5 = ⟨1, "a"⟩ ∧
      find_successor_claim c5Finger c5Alive c5Rpc 5 = ⟨6, "n6"⟩ ∧
      c5Alive "b" = false ∧ c5Rpc "b" 5 = none ∧ c5Alive "a" = true ∧
      find_successor c5Finger c5Rpc 5 ≠
        find_successor_claim c5Finger c5Alive c5Rpc 5 := by
  decide

/-- The closest preceding finger without a liveness filter. -/
def cpnDesc (st : ChordState) (key : Int) : Option NodeInfo :=
  (st.finger.reverse.filterMap id).find?
    (fun f => is_in_interval f.id st.id key false)

/-- find_successor as claim C5 amended: the forwarding target is the
closest preceding finger, with no liveness check. -/
def find_successor_desc (st : ChordState)
    (rpc : String → Int → Option NodeInfo) (key : Int) : NodeInfo :=
  let succ := (st.finger.headD none).getD ⟨st.id, st.address⟩
  if succ.address = st.address then succ
  else if is_in_interval key st.id succ.id true then succ
  else
    match cpnDesc st key with
    | none => succ
    | some n0 =>
      if n0.address = st.address then succ
      else
        match rpc n0.address key with
        | some result => result
        | none => succ

theorem cpnScan_eq_find (selfId key : Int) (fs : List (Option NodeInfo)) :
    cpnScan selfId key fs =
      (fs.reverse.filterMap id).find?
        (fun f => is_in_interval f.id selfId key false) := by
  induction fs with
  | nil => rfl
  | cons f rest ih =>
    rw [List.reverse_cons, List.filterMap_append, List.find?_append, ← ih]
    cases hr : cpnScan selfId key rest with
    | some n => simp [cpnScan, hr, Option.or]
    | none =>
      cases f with
      | none => simp [cpnScan, hr, Option.or]
      | some fi =>
        simp only [cpnScan, hr, List.filterMap_cons, id, List.filterMap_nil,
          List.find?, Option.or]
        split_ifs with h
        · simp [List.find?, h]
        · simp [List.find?, h]

/-- C5 (amended): find_successor returns self when it is the only node
(successor missing or pointing at itself), returns finger[0] when the
key lies in (self.id, finger[0].id], otherwise forwards to the closest
preceding finger with no liveness check, returning its own successor
when no remote finger precedes the key and falling back to finger[0]
when the forwarded RPC fails. -/
theorem c5_find_successor_amended (st : ChordState)
    (rpc : String → Int → Option NodeInfo) (key : Int) :
    find_successor st rpc key = find_successor_desc st rpc key := by
  unfold find_successor find_successor_desc closest_preceding_node cpnDesc
  rw [cpnScan_eq_find]
  cases h : (st.finger.reverse.filterMap id).find?
      (fun f => is_in_interval f.id st.id key false) with
  | none => simp
  | some n0 => simp

/-! ## Key-shape lemmas for the storage embedding -/

theorem tag_isPrefixOf_append (p x : PyKey) : p.isPrefixOf (p ++ x) := by
  simp [List.isPrefixOf_iff_prefix]

theorem is_meta_ver (k : PyKey) : is_meta_key (meta_ver_key k) = true := by
  simp [is_meta_key, meta_ver_key, tag_isPrefixOf_append]

theorem is_meta_del (k : PyKey) : is_meta_key (meta_del_key k) = true := by
  simp [is_meta_key, meta_del_key, tag_isPrefixOf_append]

theorem ver_tag_ne_del_tag_append (a b : PyKey) :
    META_VER_TAG ++ a ≠ META_DEL_TAG ++ b := by
  intro h
  have h12 : META_VER_TAG.length = META_DEL_TAG.length := by decide
  have h1 := congrArg (fun l => List.take META_VER_TAG.length l) h
  simp only at h1
  rw [List.take_left] at h1
  rw [h12, List.take_left] at h1
  exact absurd h1 (by decide)

theorem meta_ver_ne_meta_del (a b : PyKey) :
    meta_ver_key a ≠ meta_del_key b :=
  ver_tag_ne_del_tag_append a b

theorem ver_not_prefix_of_del (k : PyKey) :
    META_VER_TAG.isPrefixOf (META_DEL_TAG ++ k) = false := by
  rw [Bool.eq_false_iff]
  intro h
  rw [List.isPrefixOf_iff_prefix] at h
  obtain ⟨t, ht⟩ := h
  exact ver_tag_ne_del_tag_append t k ht

theorem base_of_ver (k : PyKey) :
    base_key_from_meta (meta_ver_key k) = k := by
  unfold base_key_from_meta meta_ver_key
  rw [if_pos (tag_isPrefixOf_append META_VER_TAG k), List.drop_left]

theorem base_of_del (k : PyKey) :
    base_key_from_meta (meta_del_key k) = k := by
  unfold base_key_from_meta meta_del_key
  rw [if_neg (by rw [ver_not_prefix_of_del k]; exact Bool.false_ne_true),
    if_pos (tag_isPrefixOf_append META_DEL_TAG k), List.drop_left]

theorem base_of_nonmeta (k : PyKey) (h : is_meta_key k = false) :
    base_key_from_meta k = k := by
  simp only [is_meta_key, Bool.or_eq_false_iff] at h
  unfold base_key_from_meta
  rw [if_neg (by rw [h.1]; exact Bool.false_ne_true),
    if_neg (by rw [h.2]; exact Bool.false_ne_true)]

theorem nonmeta_ne_ver (k x : PyKey) (h : is_meta_key k = false) :
    k ≠ meta_ver_key x := by
  intro he
  rw [he, is_meta_ver] at h
  simp at h

theorem nonmeta_ne_del (k x : PyKey) (h : is_meta_key k = false) :
    k ≠ meta_del_key x := by
  intro he
  rw [he, is_meta_del] at h
  simp at h

theorem key_ne_meta_ver (k : PyKey) : k ≠ meta_ver_key k := by
  intro h
  have := congrArg List.length h
  simp [meta_ver_key, META_VER_TAG, kc] at this
  omega

theorem key_ne_meta_del (k : PyKey) : k ≠ meta_del_key k := by
  intro h
  have := congrArg List.length h
  simp [meta_del_key, META_DEL_TAG, kc] at this
  omega

theorem meta_ver_inj {a b : PyKey} (h : meta_ver_key a = meta_ver_key b) :
    a = b :=
  List.append_cancel_left h

theorem meta_del_inj {a b : PyKey} (h : meta_del_key a = meta_del_key b) :
    a = b :=
  List.append_cancel_left h

theorem put_get_self (s : Storage) (k : PyKey) (v : String)
    (ver : Option Int) (now : Int) (h : is_meta_key k = false) :
    (s.put k v ver now).get k = some v := by
  unfold Storage.put Storage.get dictPop dictSet
  simp only [base_of_nonmeta k h]
  rw [if_neg (nonmeta_ne_del k k h), if_neg (nonmeta_ne_ver k k h)]
  simp

/-! ## Router operations (core.py): exists / load / save / delete

The Chord routing call node.find_successor is the embedded
find_successor; hash_key (SHA1 mod 2^M) stays an oracle hashK.
Remote stubs are oracles whose none result is a raised RPC error;
protobuf serialization is an abstract pair serialize/parse, with the
latin1 bytes-to-str round trip absorbed. -/

/-- Router error kinds of core.py (grpc.StatusCode values). -/
inductive StatusCode
  | NOT_FOUND
  | INTERNAL
deriving DecidableEq

/-- core.load (core.py lines 47-117). -/
def core_load {Msg : Type} (st : ChordState)
    (rpcFS : String → Int → Option NodeInfo) (hashK : PyKey → Int)
    (stor : Storage) (remoteGet : String → PyKey → Option String)
    (parse : String → Option Msg) (key : PyKey) :
    Option Msg × Option StatusCode :=
  let responsible := find_successor st rpcFS (hashK key)
  if responsible.address = st.address then
    match stor.get key with
    | none => (none, some StatusCode.NOT_FOUND)
    | some v =>
      if v = "" then (none, some StatusCode.NOT_FOUND)
      else
        match parse v with
        | some m => (some m, none)
        | none => (none, some StatusCode.INTERNAL)
  else
    match remoteGet responsible.address key with
    | some v =>
      if v = "" then (none, some StatusCode.NOT_FOUND)
      else
        match parse v with
        | some m => (some m, none)
        | none => (none, some StatusCode.INTERNAL)
    | none =>
      match stor.get key with
      | some v =>
        if v ≠ "" then
          match parse v with
          | some m => (some m, none)
          | none => (none, some StatusCode.INTERNAL)
        else (none, some StatusCode.INTERNAL)
      | none => (none, some StatusCode.INTERNAL)

/-- core.save (core.py lines 120-165): returns the new local store and
the error code (none on success). -/
def core_save {Msg : Type} (st : ChordState)
    (rpcFS : String → Int → Option NodeInfo) (hashK : PyKey → Int)
    (stor : Storage)
    (remotePut : String → PyKey → String → Option Unit)
    (serialize : Msg → String) (key : PyKey) (msg : Msg) (now : Int) :
    Storage × Option StatusCode :=
  let responsible := find_successor st rpcFS (hashK key)
  let sv := serialize msg
  if responsible.address = st.address then
    (stor.put key sv (some now) now, none)
  else
    match remotePut responsible.address key sv with
    | some _ => (stor, none)
    | none => (stor.put key sv (some now) now, none)

/-- core.delete (core.py lines 167-208). -/
def core_delete (st : ChordState)
    (rpcFS : String → Int → Option NodeInfo) (hashK : PyKey → Int)
    (stor : Storage) (remoteDelete : String → PyKey → Option Unit)
    (key : PyKey) (now : Int) : Storage × Option StatusCode :=
  let responsible := find_successor st rpcFS (hashK key)
  if responsible.address = st.address then
    (stor.delete key (some now) now, none)
  else
    match remoteDelete responsible.address key with
    | some _ => (stor, none)
    | none => (stor.delete key (some now) now, none)

/-- core.exists (core.py lines 13-44): any exception, including a
failed remote Get, falls into the except branch returning
(False, INTERNAL). -/
def core_exists (st : ChordState)
    (rpcFS : String → Int → Option NodeInfo) (hashK : PyKey → Int)
    (stor : Storage) (remoteGet : String → PyKey → Option String)
    (key : PyKey) : Bool × Option StatusCode :=
  let responsible := find_successor st rpcFS (hashK key)
  if responsible.address = st.address then
    (stor.existsKey key, none)
  else
    match remoteGet responsible.address key with
    | some v => (v ≠ "", none)
    | none => (false, some StatusCode.INTERNAL)

/-- C6 (amended): when the responsible node is remote and every RPC
to it fails, save writes locally and reports success, delete
tombstones locally and reports success, load returns the locally
stored replica when a non-empty one exists and parses, and INTERNAL
when the replica is absent, empty (the Python falsiness check) or
unparseable, and exists returns the INTERNAL error code. -/
theorem c6_remote_failure_fallbacks {Msg : Type} (st : ChordState)
    (rpcFS : String → Int → Option NodeInfo) (hashK : PyKey → Int)
    (stor : Storage) (remoteGet : String → PyKey → Option String)
    (remotePut : String → PyKey → String → Option Unit)
    (remoteDelete : String → PyKey → Option Unit)
    (parse : String → Option Msg) (serialize : Msg → String)
    (key : PyKey) (msg : Msg) (now : Int)
    (hremote : (find_successor st rpcFS (hashK key)).address ≠ st.address)
    (hg : remoteGet (find_successor st rpcFS (hashK key)).address key = none)
    (hp : remotePut (find_successor st rpcFS (hashK key)).address key
      (serialize msg) = none)
    (hd : remoteDelete (find_successor st rpcFS (hashK key)).address key =
      none) :
    core_save st rpcFS hashK stor remotePut serialize key msg now =
        (stor.put key (serialize msg) (some now) now, none) ∧
      core_delete st rpcFS hashK stor remoteDelete key now =
        (stor.delete key (some now) now, none) ∧
      (∀ (v : String) (m : Msg), stor.get key = some v → v ≠ "" →
        parse v = some m →
        core_load st rpcFS hashK stor remoteGet parse key =
          (some m, none)) ∧
      (stor.get key = none →
        core_load st rpcFS hashK stor remoteGet parse key =
          (none, some StatusCode.INTERNAL)) ∧
      (∀ v : String, stor.get key = some v → v = "" →
        core_load st rpcFS hashK stor remoteGet parse key =
          (none, some StatusCode.INTERNAL)) ∧
      (∀ v : String, stor.get key = some v → v ≠ "" → parse v = none →
        core_load st rpcFS hashK stor remoteGet parse key =
          (none, some StatusCode.INTERNAL)) ∧
      core_exists st rpcFS hashK stor remoteGet key =
        (false, some StatusCode.INTERNAL) := by
  refine ⟨?_, ?_, ?_, ?_, ?_, ?_, ?_⟩
  · unfold core_save
    rw [if_neg hremote, hp]
  · unfold core_delete
    rw [if_neg hremote, hd]
  · intro v m hv hve hparse
    unfold core_load
    rw [if_neg hremote, hg, hv]
    simp [hve, hparse]
  · intro hv
    unfold core_load
    rw [if_neg hremote, hg, hv]
  · intro v hv hveq
    subst hveq
    unfold core_load
    rw [if_neg hremote, hg, hv]
    simp
  · intro v hv hne hpn
    unfold core_load
    rw [if_neg hremote, hg, hv]
    simp [hne, hpn]
  · unfold core_exists
    rw [if_neg hremote, hg]

/-- Concrete two-node routing state for the C6 witness: the embedded
node is "self" with id 0, its successor ⟨1, "other"⟩ is responsible
for hash value 1. -/
def c6St : ChordState := ⟨0, "self", [some ⟨1, "other"⟩]⟩

/-- Hash oracle of the C6 witness: every key hashes to 1. -/
def c6Hash : PyKey → Int := fun _ => 1

/-- FindSuccessor RPC oracle of the C6 witness: every call fails. -/
def c6NoFS : String → Int → Option NodeInfo := fun _ _ => none

/-- Remote Get oracle of the C6 witness: every call fails. -/
def c6NoGet : String → PyKey → Option String := fun _ _ => none

/-- Remote Put oracle of the C6 witness: every call fails. -/
def c6NoPut : String → PyKey → String → Option Unit := fun _ _ _ => none

/-- Remote Delete oracle of the C6 witness: every call fails. -/
def c6NoDel : String → PyKey → Option Unit := fun _ _ => none

/-- Local store of the C6 witness, holding a replica of key "k". -/
def c6Stor : Storage := emptyStorage.put (kc "k") "hello" (some 5) 5

/-- Local store holding an empty-string replica of key "k", the state
save leaves behind for a message serializing to the empty string. -/
def c6EmptyStor : Storage := emptyStorage.put (kc "k") "" (some 5) 5

/-- C6 counterexample: the responsible node for "k" is remote and the
RPC to it fails, a locally stored replica of "k" exists (the empty
string, which a protobuf message with all fields at their defaults
serializes to), yet load hits the falsiness check `if value:` in the
fallback and returns INTERNAL instead of the stored replica. -/
theorem c6_counterexample :
    (find_successor c6St c6NoFS (c6Hash (kc "k"))).address ≠
        c6St.address ∧
      c6NoGet (find_successor c6St c6NoFS (c6Hash (kc "k"))).address
        (kc "k") = none ∧
      c6EmptyStor.get (kc "k") = some "" ∧
      core_load c6St c6NoFS c6Hash c6EmptyStor c6NoGet
        (fun _ : String => some ()) (kc "k") =
        (none, some StatusCode.INTERNAL) := by
  decide

/-- Witness for C6 (amended) with the responsible node remote and
unreachable. -/
theorem c6_witness :
    (find_successor c6St c6NoFS (c6Hash (kc "k"))).address ≠
        c6St.address ∧
      core_save c6St c6NoFS c6Hash c6Stor c6NoPut (fun s : String => s)
          (kc "k") "m" 9 = (c6Stor.put (kc "k") "m" (some 9) 9, none) ∧
      core_delete c6St c6NoFS c6Hash c6Stor c6NoDel (kc "k") 9 =
        (c6Stor.delete (kc "k") (some 9) 9, none) ∧
      core_load c6St c6NoFS c6Hash c6Stor c6NoGet
          (fun s : String => some s) (kc "k") = (some "hello", none) ∧
      core_load c6St c6NoFS c6Hash emptyStorage c6NoGet
          (fun s : String => some s) (kc "k") =
        (none, some StatusCode.INTERNAL) ∧
      core_load c6St c6NoFS c6Hash c6EmptyStor c6NoGet
          (fun s : String => some s) (kc "k") =
        (none, some StatusCode.INTERNAL) ∧
      core_exists c6St c6NoFS c6Hash c6Stor c6NoGet (kc "k") =
        (false, some StatusCode.INTERNAL) := by
  have h1 := @c6_remote_failure_fallbacks String c6St c6NoFS c6Hash
    c6Stor c6NoGet c6NoPut c6NoDel (fun s => some s) (fun s => s) (kc "k")
    "m" 9 (by decide) rfl rfl rfl
  have h2 := @c6_remote_failure_fallbacks String c6St c6NoFS c6Hash
    emptyStorage c6NoGet c6NoPut c6NoDel (fun s => some s) (fun s => s)
    (kc "k") "m" 9 (by decide) rfl rfl rfl
  have h3 := @c6_remote_failure_fallbacks String c6St c6NoFS c6Hash
    c6EmptyStor c6NoGet c6NoPut c6NoDel (fun s => some s) (fun s => s)
    (kc "k") "m" 9 (by decide) rfl rfl rfl
  exact ⟨by decide, h1.1, h1.2.1,
    h1.2.2.1 "hello" "hello" (by decide) (by decide) rfl,
    h2.2.2.2.1 (by decide), h3.2.2.2.2.1 "" (by decide) rfl,
    h1.2.2.2.2.2.2⟩

/-! ## Claim C7: synchronous save/load round trip -/

/-- Single-node routing state for C7: finger[0] unset, so
find_successor answers self for every id. -/
def c7SingleSt : ChordState := ⟨0, "self", []⟩

/-- Serialization of the protobuf Empty-like message type: the only
message serializes to the empty byte string, as protobuf messages with
all fields at their defaults do. -/
def unitSerialize : Unit → String := fun _ => ""

/-- Parsing for the same message type: every byte string parses (extra
fields are ignored by protobuf), so the round trip holds. -/
def unitParse : String → Option Unit := fun _ => some ()

/-- C7 counterexample: a message whose serialized form is the empty
string (such as a protobuf message with every field at its default) is
saved on the responsible node, but the immediate load hits the Python
falsiness check `if not value` and reports NOT_FOUND instead of
returning the message. -/
theorem c7_counterexample :
    unitParse (unitSerialize ()) = some () ∧
      (find_successor c7SingleSt (fun _ _ => none) 0).address =
        c7SingleSt.address ∧
      core_load c7SingleSt (fun _ _ => none) (fun _ => 0)
          (core_save c7SingleSt (fun _ _ => none) (fun _ => 0)
              emptyStorage (fun _ _ _ => none) unitSerialize
              (kc "k") () 5).1
          (fun _ _ => none) unitParse (kc "k") =
        (none, some StatusCode.NOT_FOUND) := by
  decide

/-- C7 (amended): on the node responsible for K, for every key that is
not meta-prefixed and every message whose serialized form is non-empty
and round-trips through parse, save(K, v) followed immediately by
load(K) returns v, synchronously and before any replication runs. -/
theorem c7_save_load_roundtrip_amended {Msg : Type} (st : ChordState)
    (rpcFS : String → Int → Option NodeInfo) (hashK : PyKey → Int)
    (stor : Storage)
    (remotePut : String → PyKey → String → Option Unit)
    (remoteGet : String → PyKey → Option String)
    (serialize : Msg → String) (parse : String → Option Msg)
    (key : PyKey) (msg : Msg) (now : Int)
    (hself : (find_successor st rpcFS (hashK key)).address = st.address)
    (hmeta : is_meta_key key = false)
    (hser : serialize msg ≠ "")
    (hrt : parse (serialize msg) = some msg) :
    core_load st rpcFS hashK
        (core_save st rpcFS hashK stor remotePut serialize key msg now).1
        remoteGet parse key = (some msg, none) := by
  have hsave : (core_save st rpcFS hashK stor remotePut serialize key msg
      now).1 = stor.put key (serialize msg) (some now) now := by
    unfold core_save
    rw [if_pos hself]
  rw [hsave]
  unfold core_load
  rw [if_pos hself,
    put_get_self stor key (serialize msg) (some now) now hmeta]
  simp [hser, hrt]

/-- Witness for C7 (amended) at key "k" and message "hello" on a
single-node ring. -/
theorem c7_witness :
    (find_successor c7SingleSt c6NoFS (c6Hash (kc "k"))).address =
        c7SingleSt.address ∧ is_meta_key (kc "k") = false ∧
      ("hello" : String) ≠ "" ∧
      (some "hello" : Option String) = some "hello" ∧
      core_load c7SingleSt c6NoFS c6Hash
          (core_save c7SingleSt c6NoFS c6Hash emptyStorage c6NoPut
              (fun s : String => s) (kc "k") "hello" 5).1
          c6NoGet (fun s : String => some s) (kc "k") =
        (some "hello", none) :=
  ⟨by decide, by decide, by decide, rfl,
    c7_save_load_roundtrip_amended c7SingleSt c6NoFS c6Hash emptyStorage
      c6NoPut c6NoGet (fun s => s) (fun s => some s) (kc "k") "hello" 5
      (by decide) (by decide) (by decide) rfl⟩

/-! ## Claim C8: per-key exclusivity of live value and tombstone -/

/-- The mutating operations of storage.Storage. -/
inductive StoreOp
  | putOp (key : PyKey) (value : String) (version : Option Int)
  | deleteOp (key : PyKey) (version : Option Int)
  | purgeOp (key : PyKey)

/-- The key an operation is applied to. -/
def StoreOp.opKey : StoreOp → PyKey
  | StoreOp.putOp k _ _ => k
  | StoreOp.deleteOp k _ => k
  | StoreOp.purgeOp k => k

/-- Apply one operation with the clock reading at that moment. -/
def applyOp (s : Storage) (now : Int) : StoreOp → Storage
  | StoreOp.putOp k v ver => s.put k v ver now
  | StoreOp.deleteOp k ver => s.delete k ver now
  | StoreOp.purgeOp k => s.purge k

/-- Run a trace of operations from a starting store. -/
def runOps (s : Storage) : List (StoreOp × Int) → Storage
  | [] => s
  | (op, now) :: rest => runOps (applyOp s now op) rest

/-- A key is good when stripping one meta marker does not leave
another meta marker: the base the operation really acts on is a plain
application key. -/
def goodKey (k : PyKey) : Prop :=
  is_meta_key (base_key_from_meta k) = false

instance (k : PyKey) : Decidable (goodKey k) := by
  unfold goodKey; infer_instance

/-- The per-key exclusivity invariant of claim C8: a base key holding
a live value has no tombstone meta entry. -/
def StoreInv (s : Storage) : Prop :=
  ∀ b : PyKey, is_meta_key b = false → s.data b ≠ none →
    s.data (meta_del_key b) = none

theorem inv_empty : StoreInv emptyStorage := fun _ _ hp => absurd rfl hp

theorem inv_put (s : Storage) (k : PyKey) (v : String) (ver : Option Int)
    (now : Int) (hk : goodKey k) (hs : StoreInv s) :
    StoreInv (s.put k v ver now) := by
  intro b hb hpres
  unfold goodKey at hk
  simp only [Storage.put, dictPop, dictSet] at hpres ⊢
  by_cases hbK : b = base_key_from_meta k
  · subst hbK
    rw [if_pos rfl]
  · rw [if_neg (fun h => hbK (meta_del_inj h)),
      if_neg (fun h => meta_ver_ne_meta_del (base_key_from_meta k) b h.symm),
      if_neg (Ne.symm (nonmeta_ne_del (base_key_from_meta k) b hk))]
    rw [if_neg (nonmeta_ne_del b (base_key_from_meta k) hb),
      if_neg (nonmeta_ne_ver b (base_key_from_meta k) hb),
      if_neg hbK] at hpres
    exact hs b hb hpres

theorem inv_delete (s : Storage) (k : PyKey) (ver : Option Int)
    (now : Int) (hk : goodKey k) (hs : StoreInv s) :
    StoreInv (s.delete k ver now) := by
  intro b hb hpres
  unfold goodKey at hk
  simp only [Storage.delete, dictPop, dictSet] at hpres ⊢
  by_cases hbK : b = base_key_from_meta k
  · subst hbK
    rw [if_neg (key_ne_meta_del _), if_neg (key_ne_meta_ver _),
      if_pos rfl] at hpres
    exact absurd rfl hpres
  · rw [if_neg (fun h => hbK (meta_del_inj h)),
      if_neg (fun h => meta_ver_ne_meta_del (base_key_from_meta k) b h.symm),
      if_neg (Ne.symm (nonmeta_ne_del (base_key_from_meta k) b hk))]
    rw [if_neg (nonmeta_ne_del b (base_key_from_meta k) hb),
      if_neg (nonmeta_ne_ver b (base_key_from_meta k) hb),
      if_neg hbK] at hpres
    exact hs b hb hpres

theorem inv_purge (s : Storage) (k : PyKey) (hk : goodKey k)
    (hs : StoreInv s) : StoreInv (s.purge k) := by
  intro b hb hpres
  unfold goodKey at hk
  simp only [Storage.purge, dictPop] at hpres ⊢
  by_cases hbK : b = base_key_from_meta k
  · subst hbK
    rw [if_pos rfl]
  · rw [if_neg (fun h => hbK (meta_del_inj h)),
      if_neg (fun h => meta_ver_ne_meta_del (base_key_from_meta k) b h.symm),
      if_neg (Ne.symm (nonmeta_ne_del (base_key_from_meta k) b hk))]
    rw [if_neg (nonmeta_ne_del b (base_key_from_meta k) hb),
      if_neg (nonmeta_ne_ver b (base_key_from_meta k) hb),
      if_neg hbK] at hpres
    exact hs b hb hpres

theorem inv_run (tr : List (StoreOp × Int)) (s : Storage)
    (hs : StoreInv s) (htr : ∀ p ∈ tr, goodKey p.1.opKey) :
    StoreInv (runOps s tr) := by
  induction tr generalizing s with
  | nil => exact hs
  | cons p rest ih =>
    rcases p with ⟨op, now⟩
    have hop : goodKey op.opKey := htr _ (List.mem_cons_self _ _)
    have hrest : ∀ p ∈ rest, goodKey p.1.opKey :=
      fun q hq => htr q (List.mem_cons_of_mem _ hq)
    show StoreInv (runOps (applyOp s now op) rest)
    refine ih (applyOp s now op) ?_ hrest
    rcases op with ⟨k, v, ver⟩ | ⟨k, ver⟩ | k
    · exact inv_put s k v ver now hop hs
    · exact inv_delete s k ver now hop hs
    · exact inv_purge s k hop hs

theorem delete_post (s : Storage) (k : PyKey) (ver : Option Int)
    (now : Int) :
    (s.delete k ver now).data (base_key_from_meta k) = none ∧
      (s.delete k ver now).data (meta_ver_key (base_key_from_meta k)) =
        none ∧
      (s.delete k ver now).data (meta_del_key (base_key_from_meta k)) =
        some (toString (ver.getD now)) := by
  simp only [Storage.delete, dictSet, dictPop]
  refine ⟨?_, ?_, ?_⟩
  · rw [if_neg (key_ne_meta_del _), if_neg (key_ne_meta_ver _)]
    simp
  · rw [if_neg (fun h => meta_ver_ne_meta_del _ _ h)]
    simp
  · simp

/-- The C8 counterexample trace: a normal put of "x" followed by a put
whose key carries two stacked meta markers, which plants a tombstone
meta entry for "x" while "x" stays live. -/
def c8Trace : List (StoreOp × Int) :=
  [(StoreOp.putOp (kc "x") "v" (some 5), 5),
    (StoreOp.putOp (kc "__meta_ver____meta_del__x") "w" (some 6), 6)]

/-- C8 counterexample: after the trace c8Trace, reachable through put
alone, the base key "x" is present in the data map and its
__meta_del__ entry is present as well, so a key can hold a live value
and a tombstone at once. -/
theorem c8_counterexample :
    (runOps emptyStorage c8Trace).data (kc "x") ≠ none ∧
      (runOps emptyStorage c8Trace).data (meta_del_key (kc "x")) ≠
        none := by
  decide

/-- C8 (amended): provided every operation key strips to a base that
is not itself meta-prefixed, in every store reachable from empty via
put, delete and purge a non-meta base key present in the data map has
no __meta_del__ entry; and a delete leaves the base key and its
__meta_ver__ entry absent with only the __meta_del__ entry (holding
the tombstone version) remaining. -/
theorem c8_storage_invariant_amended :
    (∀ tr : List (StoreOp × Int), (∀ p ∈ tr, goodKey p.1.opKey) →
      ∀ b : PyKey, is_meta_key b = false →
        (runOps emptyStorage tr).data b ≠ none →
        (runOps emptyStorage tr).data (meta_del_key b) = none) ∧
      ∀ (s : Storage) (k : PyKey) (ver : Option Int) (now : Int),
        (s.delete k ver now).data (base_key_from_meta k) = none ∧
          (s.delete k ver now).data
            (meta_ver_key (base_key_from_meta k)) = none ∧
          (s.delete k ver now).data
            (meta_del_key (base_key_from_meta k)) =
            some (toString (ver.getD now)) :=
  ⟨fun tr htr => inv_run tr emptyStorage inv_empty htr, delete_post⟩

/-- Good trace for the C8 witness: one ordinary put of key "a". -/
def c8GoodTrace : List (StoreOp × Int) :=
  [(StoreOp.putOp (kc "a") "v" (some 3), 3)]

/-- Witness for C8 (amended) on the one-put trace and a delete. -/
theorem c8_witness :
    (runOps emptyStorage c8GoodTrace).data (meta_del_key (kc "a")) =
        none ∧
      (emptyStorage.delete (kc "a") (some 4) 9).data
        (base_key_from_meta (kc "a")) = none :=
  ⟨c8_storage_invariant_amended.1 c8GoodTrace (by decide) (kc "a")
      (by decide) (by decide),
    (c8_storage_invariant_amended.2 emptyStorage (kc "a") (some 4) 9).1⟩

/-! ## Claim C9: Storage startup on a persisted database file -/

/-- JSON values as json.load produces them. -/
inductive JValue
  | jnull
  | jbool (b : Bool)
  | jnum (n : Int)
  | jstr (s : String)
  | jarr (xs : List JValue)
  | jobj (fields : List (String × JValue))

/-- Whether a decoded JSON value is an object (a Python dict). -/
def JValue.isObj : JValue → Bool
  | JValue.jobj _ => true
  | _ => false

/-- Python dict.get(key, default) on a decoded JSON object. -/
def jGet (fields : List (String × JValue)) (k : String) (dflt : JValue) :
    JValue :=
  match fields.lookup k with
  | some v => v
  | none => dflt

/-- The possible outcomes of the open + json.load sequence in
Storage.__init__: missing file, IOError while opening or reading,
json.JSONDecodeError, or a decoded JSON value. -/
inductive DBFile
  | missing
  | ioError
  | decodeError
  | parsed (j : JValue)

/-- Storage.__init__ (storage.py lines 29-44): the except clause
catches only JSONDecodeError and IOError; loaded.get(...) raises
AttributeError when the decoded value is not an object, and nothing
catches it.  The result is the initial self.data or the uncaught
exception name. -/
def storage_init : DBFile → Except String JValue
  | DBFile.missing => Except.ok (JValue.jobj [])
  | DBFile.ioError => Except.ok (JValue.jobj [])
  | DBFile.decodeError => Except.ok (JValue.jobj [])
  | DBFile.parsed (JValue.jobj fields) =>
    Except.ok (jGet fields "data" (JValue.jobj []))
  | DBFile.parsed _ => Except.error "AttributeError"

/-- C9 counterexample: a database file holding the valid JSON text
"[]" decodes fine, but loaded.get then raises an uncaught
AttributeError: a corrupted-but-decodable file crashes startup instead
of being treated as an empty store. -/
theorem c9_counterexample :
    storage_init (DBFile.parsed (JValue.jarr [])) =
      Except.error "AttributeError" := rfl

/-- C9 (amended): a missing, unreadable (IOError) or undecodable
(JSONDecodeError) database file initializes the store as empty without
crashing, and a decoded JSON object initializes it from its data
field; but a file decoding to a JSON value that is not an object
raises an uncaught AttributeError. -/
theorem c9_init_amended :
    storage_init DBFile.missing = Except.ok (JValue.jobj []) ∧
      storage_init DBFile.ioError = Except.ok (JValue.jobj []) ∧
      storage_init DBFile.decodeError = Except.ok (JValue.jobj []) ∧
      (∀ fields : List (String × JValue),
        storage_init (DBFile.parsed (JValue.jobj fields)) =
          Except.ok (jGet fields "data" (JValue.jobj []))) ∧
      ∀ j : JValue, j.isObj = false →
        storage_init (DBFile.parsed j) = Except.error "AttributeError" := by
  refine ⟨rfl, rfl, rfl, fun _ => rfl, ?_⟩
  intro j hj
  cases j <;> first | rfl | (exact absurd hj (by simp [JValue.isObj]))

/-- Witness for C9 (amended) at a file decoding to the string "oops". -/
theorem c9_witness :
    storage_init (DBFile.parsed (JValue.jstr "oops")) =
      Except.error "AttributeError" :=
  c9_init_amended.2.2.2.2 (JValue.jstr "oops") rfl

/-! ## Claim C10: meta keys through put, get and the Put RPC -/

/-- C10: storage.put on a meta-prefixed key strips the marker and
stores the supplied string as the live value of the base key, records
the version under the version meta entry and clears the tombstone meta
entry of the base key; storage.get reads the meta entry verbatim with
no stripping; consequently a Put RPC whose key is the version meta key
of k overwrites the application value of k with the pushed version
string. -/
theorem c10_meta_put_get (stor : Storage) (k : PyKey) (v : String)
    (ver now localVer : Int) :
    ((stor.put (meta_ver_key k) v (some ver) now).data k = some v ∧
      (stor.put (meta_ver_key k) v (some ver) now).data
        (meta_ver_key k) = some (toString ver) ∧
      (stor.put (meta_ver_key k) v (some ver) now).data
        (meta_del_key k) = none) ∧
      (stor.put (meta_del_key k) v (some ver) now).data k = some v ∧
      (stor.put k v (some ver) now).get
        (meta_ver_key (base_key_from_meta k)) = some (toString ver) ∧
      (nodePutRPC stor (meta_ver_key k) (toString localVer) now).data k =
        some (toString localVer) := by
  refine ⟨⟨?_, ?_, ?_⟩, ?_, ?_, ?_⟩
  · simp only [Storage.put, dictSet, dictPop, base_of_ver]
    rw [if_neg (key_ne_meta_del k), if_neg (key_ne_meta_ver k)]
    simp
  · simp only [Storage.put, dictSet, dictPop, base_of_ver]
    rw [if_neg (meta_ver_ne_meta_del k k)]
    simp
  · simp only [Storage.put, dictSet, dictPop, base_of_ver]
    simp
  · simp only [Storage.put, dictSet, dictPop, base_of_del]
    rw [if_neg (key_ne_meta_del k), if_neg (key_ne_meta_ver k)]
    simp
  · simp only [Storage.put, Storage.get, dictSet, dictPop]
    rw [if_neg (meta_ver_ne_meta_del _ _)]
    simp
  · simp only [nodePutRPC, Storage.put, dictSet, dictPop, base_of_ver]
    rw [if_neg (key_ne_meta_del k), if_neg (key_ne_meta_ver k)]
    simp

/-! ## Claim C2: the periodic push replication cycle -/

/-- Parameter names of Replicator.get_successor_list after self
(replicator.py line 99): only count. -/
def get_successor_list_params : List String := ["count"]

/-- Keyword argument names at the call inside
Replicator.replicate_data (replicator.py line 170). -/
def replicate_data_call_kwargs : List String := ["alive_only"]

/-- Python keyword binding: a call raises TypeError unless every
keyword argument names a declared parameter. -/
def pyKwargsBindOk (params kwargs : List String) : Bool :=
  kwargs.all (fun k => params.contains k)

/-- The first statement of Replicator.replicate_data, the call
get_successor_list(REPLICATION_K, alive_only=True): with the binding
check failed it raises TypeError before anything else in the
replication cycle runs; gather stands for the body of
get_successor_list that would otherwise walk the ring. -/
def replicate_data_entry (gather : Unit → List NodeInfo) :
    Except String (List NodeInfo) :=
  if pyKwargsBindOk get_successor_list_params replicate_data_call_kwargs
  then Except.ok (gather ())
  else Except.error "TypeError: unexpected keyword argument alive_only"

/-- The push decision of Replicator._replicate_set_to_node for one key
and one successor: given the local version and tombstone version, the
locally stored value, and the remote meta reads (value and success
flag each), does the code reach the _replicate_put calls. -/
def replicate_set_pushes (local_ver local_del : Int)
    (value : Option String) (remote_ver : Int) (rv_ok : Bool)
    (remote_del : Int) (rd_ok : Bool) : Bool :=
  if local_del ≥ local_ver ∧ local_del > 0 then false
  else if value = none then false
  else if rv_ok ∧ local_ver ≤ remote_ver then false
  else if rd_ok ∧ remote_del ≥ local_ver then false
  else true

/-- C2: the replication cycle is broken at its first statement.
replicate_data calls get_successor_list(REPLICATION_K,
alive_only=True) but get_successor_list(self, count) declares no
alive_only parameter, so every cycle raises TypeError (swallowed by
the run loop) and no push ever happens; the per-key push helper below
the call implements exactly the claimed condition (push iff local ver
is strictly above the remote ver and the remote del, when both remote
reads succeed), and a key whose local tombstone satisfies del ≥ ver
and del > 0 is skipped. -/
theorem c2_replicate_data_bug :
    pyKwargsBindOk get_successor_list_params
        replicate_data_call_kwargs = false ∧
      (∀ gather : Unit → List NodeInfo, replicate_data_entry gather =
        Except.error "TypeError: unexpected keyword argument alive_only") ∧
      (∀ (local_ver local_del remote_ver remote_del : Int) (v : String),
        ¬(local_del ≥ local_ver ∧ local_del > 0) →
        (replicate_set_pushes local_ver local_del (some v) remote_ver
            true remote_del true = true ↔
          local_ver > remote_ver ∧ local_ver > remote_del)) ∧
      ∀ (local_ver local_del remote_ver remote_del : Int)
        (value : Option String) (rv rd : Bool),
        local_del ≥ local_ver → local_del > 0 →
        replicate_set_pushes local_ver local_del value remote_ver rv
          remote_del rd = false := by
  refine ⟨by decide, ?_, ?_, ?_⟩
  · intro gather
    simp [replicate_data_entry, pyKwargsBindOk, get_successor_list_params,
      replicate_data_call_kwargs]
  · intro lv ld rv rd v hnd
    simp only [replicate_set_pushes, if_neg hnd]
    split_ifs with h2 h3 h4 <;> simp_all <;> omega
  · intro lv ld rv rd value rvo rdo h1 h2
    unfold replicate_set_pushes
    rw [if_pos ⟨h1, h2⟩]

/-- Witness for C2 at concrete versions: the entry raises, a strictly
newer local version pushes, and a dominating local tombstone skips. -/
theorem c2_witness :
    replicate_data_entry (fun _ => []) =
        Except.error "TypeError: unexpected keyword argument alive_only" ∧
      replicate_set_pushes 10 0 (some "v") 5 true 3 true = true ∧
      replicate_set_pushes 3 5 (some "v") 7 true 0 true = false :=
  ⟨c2_replicate_data_bug.2.1 (fun _ => []),
    (c2_replicate_data_bug.2.2.1 10 0 5 3 "v" (by omega)).mpr
      (by omega),
    c2_replicate_data_bug.2.2.2 3 5 7 0 (some "v") true true (by omega)
      (by omega)⟩
